import Mathlib

/-!
Shallow embedding of `src/smart-contracts/assembly/contracts/SFT/SFTWrapper.ts`
(the `SFTWrapper` proxy class of dusaprotocol/massa-standards) together with a
model of the serialization helpers it imports from `@massalabs/as-types`
(`Args`, `NoArg`, `bytesToString`, `bytesToU64`) and the cross-contract call
primitive from `@massalabs/massa-as-sdk` (`call`).  The helper libraries are
not part of the repository's sources, so they are modelled from the spec's
description of the wire format: length-prefixed UTF-8 strings, fixed 8-byte
little-endian 64-bit unsigned integers, and a distinguished empty buffer for
no-argument calls.

The wrapper itself is translated method by method: every method issues exactly
one call through the call primitive, with the target address the wrapper was
constructed with and a zero coin amount, and decodes (or discards) the raw
response bytes.
-/

/-- Bytes on the wire, each a natural number below 256. -/
abbrev Bytes := List Nat

/-! ### Little-endian fixed-width unsigned integers -/

/-- Little-endian encoding of `n` into exactly `k` bytes (low byte first);
this encodes `n` modulo `2 ^ (8 * k)`, matching fixed-width machine
integers. -/
def leBytes : Nat → Nat → Bytes
  | 0, _ => []
  | k + 1, n => n % 256 :: leBytes k (n / 256)

/-- Value of a little-endian byte list. -/
def leToNat : Bytes → Nat
  | [] => 0
  | b :: bs => b + 256 * leToNat bs

theorem leBytes_length (k n : Nat) : (leBytes k n).length = k := by
  induction k generalizing n with
  | zero => rfl
  | succ k ih => simp [leBytes, ih]

theorem leToNat_leBytes (k n : Nat) : leToNat (leBytes k n) = n % 2 ^ (8 * k) := by
  induction k generalizing n with
  | zero => simp [leBytes, leToNat, Nat.mod_one]
  | succ k ih =>
    have hpow : 2 ^ (8 * (k + 1)) = 256 * 2 ^ (8 * k) := by
      rw [Nat.mul_succ, Nat.pow_add]
      ring
    rw [leBytes, leToNat, ih, hpow, Nat.mod_mul]

/-! ### UTF-8, at the level of natural-number bytes

Modelled from the spec: string payloads are "raw UTF-8 bytes".  The encoder
is the standard UTF-8 scheme (1 to 4 bytes per character); the decoder
inverts it, dispatching on the leading byte and checking continuation
bytes. -/

/-- Standard UTF-8 encoding of one character. -/
def utf8EncodeCharN (c : Char) : Bytes :=
  let v := c.toNat
  if v < 0x80 then [v]
  else if v < 0x800 then [0xC0 + v / 0x40, 0x80 + v % 0x40]
  else if v < 0x10000 then
    [0xE0 + v / 0x1000, 0x80 + v / 0x40 % 0x40, 0x80 + v % 0x40]
  else
    [0xF0 + v / 0x40000, 0x80 + v / 0x1000 % 0x40, 0x80 + v / 0x40 % 0x40,
      0x80 + v % 0x40]

/-- Is `b` a UTF-8 continuation byte (`0x80 ≤ b < 0xC0`)? -/
def isUtf8Cont (b : Nat) : Bool := 0x80 ≤ b && b < 0xC0

/-- Decode one UTF-8 character from the front of a byte list, returning the
character and the remaining bytes, or `none` on malformed input. -/
def utf8DecodeCharN : Bytes → Option (Char × Bytes)
  | [] => none
  | b0 :: bs =>
    if b0 < 0x80 then some (Char.ofNat b0, bs)
    else if b0 < 0xC0 then none
    else if b0 < 0xE0 then
      match bs with
      | b1 :: bs1 =>
        if isUtf8Cont b1 then
          some (Char.ofNat ((b0 - 0xC0) * 0x40 + (b1 - 0x80)), bs1)
        else none
      | [] => none
    else if b0 < 0xF0 then
      match bs with
      | b1 :: b2 :: bs2 =>
        if isUtf8Cont b1 && isUtf8Cont b2 then
          some (Char.ofNat ((b0 - 0xE0) * 0x1000 + (b1 - 0x80) * 0x40 + (b2 - 0x80)), bs2)
        else none
      | _ => none
    else if b0 < 0xF8 then
      match bs with
      | b1 :: b2 :: b3 :: bs3 =>
        if isUtf8Cont b1 && isUtf8Cont b2 && isUtf8Cont b3 then
          some (Char.ofNat ((b0 - 0xF0) * 0x40000 + (b1 - 0x80) * 0x1000 +
            (b2 - 0x80) * 0x40 + (b3 - 0x80)), bs3)
        else none
      | _ => none
    else none

theorem charToNat_lt (c : Char) : c.toNat < 1114112 := by
  rcases c.valid with h | ⟨_, h⟩
  · have h2 : c.toNat < 0xd800 := UInt32.toNat_lt_of_lt (by decide) h
    omega
  · exact UInt32.toNat_lt_of_lt (by decide) h

theorem utf8DecodeCharN_encode (c : Char) (rest : Bytes) :
    utf8DecodeCharN (utf8EncodeCharN c ++ rest) = some (c, rest) := by
  have hv := charToNat_lt c
  have hofNat := Char.ofNat_toNat c
  unfold utf8EncodeCharN
  by_cases h1 : c.toNat < 0x80
  · simp [h1, utf8DecodeCharN, hofNat]
  · by_cases h2 : c.toNat < 0x800
    · simp only [h1, h2, if_true, if_false, eq_self_iff_true, List.cons_append,
        List.nil_append, if_neg]
      simp only [utf8DecodeCharN, isUtf8Cont]
      rw [if_neg (by omega), if_neg (by omega), if_pos (by omega),
        if_pos (by simp; omega)]
      have harg : (0xC0 + c.toNat / 0x40 - 0xC0) * 0x40 + (0x80 + c.toNat % 0x40 - 0x80)
          = c.toNat := by omega
      rw [harg, hofNat]
    · by_cases h3 : c.toNat < 0x10000
      · simp only [h1, h2, h3, if_true, if_false, List.cons_append, List.nil_append]
        simp only [utf8DecodeCharN, isUtf8Cont]
        rw [if_neg (by omega), if_neg (by omega), if_neg (by omega), if_pos (by omega),
          if_pos (by simp; omega)]
        have harg : (0xE0 + c.toNat / 0x1000 - 0xE0) * 0x1000 +
            (0x80 + c.toNat / 0x40 % 0x40 - 0x80) * 0x40 +
            (0x80 + c.toNat % 0x40 - 0x80) = c.toNat := by omega
        rw [harg, hofNat]
      · simp only [h1, h2, h3, if_true, if_false, List.cons_append, List.nil_append]
        simp only [utf8DecodeCharN, isUtf8Cont]
        rw [if_neg (by omega), if_neg (by omega), if_neg (by omega), if_neg (by omega),
          if_pos (by omega), if_pos (by simp; omega)]
        have harg : (0xF0 + c.toNat / 0x40000 - 0xF0) * 0x40000 +
            (0x80 + c.toNat / 0x1000 % 0x40 - 0x80) * 0x1000 +
            (0x80 + c.toNat / 0x40 % 0x40 - 0x80) * 0x40 +
            (0x80 + c.toNat % 0x40 - 0x80) = c.toNat := by omega
        rw [harg, hofNat]

/-- UTF-8 encoding of a character list. -/
def utf8EncodeList : List Char → Bytes
  | [] => []
  | c :: cs => utf8EncodeCharN c ++ utf8EncodeList cs

/-- Fueled UTF-8 decoding of a whole byte list into characters; each step
consumes at least one byte, so `bs.length` fuel always suffices. -/
def utf8DecodeAux : Nat → Bytes → Option (List Char)
  | _, [] => some []
  | 0, _ :: _ => none
  | fuel + 1, b :: bs =>
    match utf8DecodeCharN (b :: bs) with
    | some (c, rest) => (utf8DecodeAux fuel rest).map (c :: ·)
    | none => none

/-- UTF-8 decoding of a whole byte list into characters. -/
def utf8DecodeBytes (bs : Bytes) : Option (List Char) := utf8DecodeAux bs.length bs

theorem utf8EncodeCharN_ne_nil (c : Char) : utf8EncodeCharN c ≠ [] := by
  unfold utf8EncodeCharN
  dsimp only
  split_ifs <;> simp

theorem length_le_utf8EncodeList (cs : List Char) :
    cs.length ≤ (utf8EncodeList cs).length := by
  induction cs with
  | nil => simp [utf8EncodeList]
  | cons c cs ih =>
    have hne := utf8EncodeCharN_ne_nil c
    have hpos : 0 < (utf8EncodeCharN c).length := List.length_pos.mpr hne
    simp only [utf8EncodeList, List.length_append, List.length_cons]
    omega

theorem utf8DecodeAux_encode (cs : List Char) (fuel : Nat) (h : cs.length ≤ fuel) :
    utf8DecodeAux fuel (utf8EncodeList cs) = some cs := by
  induction cs generalizing fuel with
  | nil => cases fuel <;> simp [utf8EncodeList, utf8DecodeAux]
  | cons c cs ih =>
    obtain ⟨f, rfl⟩ : ∃ f, fuel = f + 1 := by
      cases fuel
      · simp at h
      · exact ⟨_, rfl⟩
    obtain ⟨b, t, hbt⟩ : ∃ b t, utf8EncodeCharN c = b :: t := by
      cases hc : utf8EncodeCharN c with
      | nil => exact absurd hc (utf8EncodeCharN_ne_nil c)
      | cons b t => exact ⟨b, t, rfl⟩
    have hdec : utf8DecodeCharN (utf8EncodeCharN c ++ utf8EncodeList cs)
        = some (c, utf8EncodeList cs) := utf8DecodeCharN_encode c _
    simp only [utf8EncodeList, hbt, List.cons_append] at hdec ⊢
    simp only [utf8DecodeAux, hdec, Option.map]
    rw [ih f (by simpa using Nat.le_of_succ_le_succ h)]

theorem utf8DecodeBytes_encode (cs : List Char) :
    utf8DecodeBytes (utf8EncodeList cs) = some cs :=
  utf8DecodeAux_encode cs _ (length_le_utf8EncodeList cs)

/-- UTF-8 bytes of a string. -/
def utf8Bytes (s : String) : Bytes := utf8EncodeList s.data

/-- UTF-8 decoding of a byte list into a string. -/
def utf8DecodeString (bs : Bytes) : Option String := (utf8DecodeBytes bs).map String.mk

theorem utf8DecodeString_utf8Bytes (s : String) :
    utf8DecodeString (utf8Bytes s) = some s := by
  simp [utf8DecodeString, utf8Bytes, utf8DecodeBytes_encode]

/-! ### Splitting on a delimiter character

Modelled from the spec: the address-list result is "decoded as a string, then
split on a single reserved delimiter character (comma)".  `splitChars` is the
semantics of AssemblyScript's `String.prototype.split` with a one-character
separator: it always yields at least one segment, and the empty string yields
`[""]`. -/

/-- Split a character list on delimiter `d`; always returns at least one
(possibly empty) segment. -/
def splitChars (d : Char) : List Char → List (List Char)
  | [] => [[]]
  | c :: cs =>
    if c = d then [] :: splitChars d cs
    else
      match splitChars d cs with
      | [] => [[c]]
      | g :: gs => (c :: g) :: gs

theorem splitChars_ne_nil (d : Char) (cs : List Char) : splitChars d cs ≠ [] := by
  cases cs with
  | nil => simp [splitChars]
  | cons c cs =>
    simp only [splitChars]
    split
    · simp
    · split <;> simp

/-- String split on a one-character delimiter, AssemblyScript-style. -/
def strSplit (s : String) (d : Char) : List String :=
  (splitChars d s.data).map String.mk

theorem strSplit_ne_nil (s : String) (d : Char) : strSplit s d ≠ [] := by
  simp only [strSplit, ne_eq, List.map_eq_nil_iff]
  exact splitChars_ne_nil d s.data

/-! ### Errors, requests and the call primitive

Modelled from the spec: the call primitive has signature
`call(target, entryPoint, payload, transferAmount) -> bytes` and may fail; the
error taxonomy distinguishes transport/remote failures from malformed-response
decode failures. -/

/-- An opaque contract/account address (`Address` from massa-as-sdk), compared
by value. -/
structure Address where
  value : String
deriving DecidableEq

/-- Failures visible to the proxy: a transport/remote failure of the call
primitive, or a decode failure on a malformed response. -/
inductive CallError where
  | transport (msg : String)
  | decode (msg : String)
deriving DecidableEq

/-- One request handed to the call primitive: target identity, entry-point
name, encoded payload, and coin-transfer amount. -/
structure CallRequest where
  target : Address
  entryPoint : String
  payload : Bytes
  coins : Nat
deriving DecidableEq

/-- The environment standing for the external call primitive `call`: maps a
request to the raw response bytes, or fails. -/
def Env : Type := CallRequest → Except CallError Bytes

/-! ### The serialization helpers of `@massalabs/as-types`

Modelled from the spec, since the library is not among the repository's
sources: `Args` accumulates length-prefixed UTF-8 strings (4-byte
little-endian length) and fixed 8-byte little-endian u64 fields in call
order; `NoArg` is the distinguished empty buffer; `bytesToString` reads a
length-prefixed string from the start of the buffer with the empty buffer
decoding to the empty string; `bytesToU64` reads exactly 8 bytes and fails
on shorter buffers. -/

/-- Wire bytes of one length-prefixed UTF-8 string field. -/
def stringFieldBytes (s : String) : Bytes :=
  leBytes 4 (utf8Bytes s).length ++ utf8Bytes s

/-- In-progress argument buffer (the `Args` builder of as-types). -/
structure Args where
  serialized : Bytes
deriving DecidableEq

/-- `new Args()`: the empty argument buffer. -/
def Args.new : Args := ⟨[]⟩

/-- `Args.add` at string type: append a length-prefixed UTF-8 string field. -/
def Args.addString (a : Args) (s : String) : Args :=
  ⟨a.serialized ++ stringFieldBytes s⟩

/-- `Args.add` at u64 type: append a fixed 8-byte little-endian field. -/
def Args.addU64 (a : Args) (n : Nat) : Args :=
  ⟨a.serialized ++ leBytes 8 n⟩

/-- `NoArg`: the distinguished empty argument buffer for no-argument calls. -/
def NoArg : Args := ⟨[]⟩

/-- Read one length-prefixed UTF-8 string field from the front of a buffer,
returning the string and the remaining bytes; fails if the length prefix is
truncated, the prefix exceeds the remaining buffer, or the bytes are not
valid UTF-8. -/
def readString (bs : Bytes) : Except CallError (String × Bytes) :=
  if bs.length < 4 then .error (.decode "string: truncated length prefix")
  else
    let len := leToNat (bs.take 4)
    let rest := bs.drop 4
    if rest.length < len then .error (.decode "string: length prefix exceeds buffer")
    else
      match utf8DecodeString (rest.take len) with
      | some s => .ok (s, rest.drop len)
      | none => .error (.decode "string: invalid UTF-8")

/-- Read one fixed 8-byte little-endian u64 field from the front of a buffer;
fails if fewer than 8 bytes are present. -/
def readU64 (bs : Bytes) : Except CallError (Nat × Bytes) :=
  if bs.length < 8 then .error (.decode "u64: fewer than 8 bytes")
  else .ok (leToNat (bs.take 8), bs.drop 8)

/-- `bytesToString`: decode a whole response buffer as a string result — read
the length-prefixed string from the start; an empty buffer decodes to the
empty string. -/
def bytesToString (bs : Bytes) : Except CallError String :=
  if bs.isEmpty then .ok ""
  else (readString bs).map Prod.fst

/-- `bytesToU64`: decode a whole response buffer as a u64 result — read
exactly 8 bytes from the start; fewer than 8 bytes is a decode error. -/
def bytesToU64 (bs : Bytes) : Except CallError Nat :=
  (readU64 bs).map Prod.fst

/-- Decode a buffer against the 3-field schema `[string, u64, u64]` (the
schema of `transfer`'s payload). -/
def decodeStringU64U64 (bs : Bytes) : Except CallError (String × Nat × Nat) :=
  match readString bs with
  | .error e => .error e
  | .ok (s, r1) =>
    match readU64 r1 with
    | .error e => .error e
    | .ok (n1, r2) =>
      match readU64 r2 with
      | .error e => .error e
      | .ok (n2, _) => .ok (s, n1, n2)

/-! ### The `SFTWrapper` proxy class

Each method is translated directly from `SFTWrapper.ts`.  An operation's
outcome is its decoded result (or the propagated call failure), the list of
requests it handed to the call primitive (in order), and the wrapper state
after the operation. -/

/-- The proxy: its only state is the target address it wraps (`_origin`). -/
structure SFTWrapper where
  _origin : Address
deriving DecidableEq

/-- Outcome of running one proxy operation against an environment. -/
structure OpResult (α : Type) where
  result : Except CallError α
  calls : List CallRequest
  final : SFTWrapper

/-- `constructor(at: Address) { this._origin = at; }` -/
def SFTWrapper.make (at_ : Address) : SFTWrapper := ⟨at_⟩

/-- `name(): string { return bytesToString(call(this._origin, 'name', NoArg, 0)); }` -/
def SFTWrapper.name (w : SFTWrapper) (env : Env) : OpResult String :=
  let req : CallRequest := ⟨w._origin, "name", NoArg.serialized, 0⟩
  ⟨(env req).bind bytesToString, [req], w⟩

/-- `symbol(): string { return bytesToString(call(this._origin, 'symbol', NoArg, 0)); }` -/
def SFTWrapper.symbol (w : SFTWrapper) (env : Env) : OpResult String :=
  let req : CallRequest := ⟨w._origin, "symbol", NoArg.serialized, 0⟩
  ⟨(env req).bind bytesToString, [req], w⟩

/-- `tokenURI(tokenId: u64): string` -/
def SFTWrapper.tokenURI (w : SFTWrapper) (env : Env) (tokenId : Nat) : OpResult String :=
  let req : CallRequest := ⟨w._origin, "tokenURI", (Args.new.addU64 tokenId).serialized, 0⟩
  ⟨(env req).bind bytesToString, [req], w⟩

/-- `baseURI(): string { return bytesToString(call(this._origin, 'baseURI', NoArg, 0)); }` -/
def SFTWrapper.baseURI (w : SFTWrapper) (env : Env) : OpResult String :=
  let req : CallRequest := ⟨w._origin, "baseURI", NoArg.serialized, 0⟩
  ⟨(env req).bind bytesToString, [req], w⟩

/-- `totalSupply(): u64 { return bytesToU64(call(this._origin, 'totalSupply', NoArg, 0)); }` -/
def SFTWrapper.totalSupply (w : SFTWrapper) (env : Env) : OpResult Nat :=
  let req : CallRequest := ⟨w._origin, "totalSupply", NoArg.serialized, 0⟩
  ⟨(env req).bind bytesToU64, [req], w⟩

/-- `currentSupply(): u64 { return bytesToU64(call(this._origin, 'currentSupply', NoArg, 0)); }` -/
def SFTWrapper.currentSupply (w : SFTWrapper) (env : Env) : OpResult Nat :=
  let req : CallRequest := ⟨w._origin, "currentSupply", NoArg.serialized, 0⟩
  ⟨(env req).bind bytesToU64, [req], w⟩

/-- `mint(addressTo: string): void` — response discarded. -/
def SFTWrapper.mint (w : SFTWrapper) (env : Env) (addressTo : String) : OpResult Unit :=
  let req : CallRequest := ⟨w._origin, "mint", (Args.new.addString addressTo).serialized, 0⟩
  ⟨(env req).map (fun _ => ()), [req], w⟩

/-- `transfer(toAddress: string, tokenId: u64, amount: u64): void` — payload
built by `new Args().add(toAddress).add(tokenId).add(amount)`. -/
def SFTWrapper.transfer (w : SFTWrapper) (env : Env)
    (toAddress : String) (tokenId amount : Nat) : OpResult Unit :=
  let req : CallRequest :=
    ⟨w._origin, "transfer",
      (((Args.new.addString toAddress).addU64 tokenId).addU64 amount).serialized, 0⟩
  ⟨(env req).map (fun _ => ()), [req], w⟩

/-- `approve(tokenId: u64, address: string): void` -/
def SFTWrapper.approve (w : SFTWrapper) (env : Env)
    (tokenId : Nat) (address : String) : OpResult Unit :=
  let req : CallRequest :=
    ⟨w._origin, "approve", ((Args.new.addU64 tokenId).addString address).serialized, 0⟩
  ⟨(env req).map (fun _ => ()), [req], w⟩

/-- `transferFrom(fromAddress: string, toAddress: string, tokenId: u64): void` -/
def SFTWrapper.transferFrom (w : SFTWrapper) (env : Env)
    (fromAddress toAddress : String) (tokenId : Nat) : OpResult Unit :=
  let req : CallRequest :=
    ⟨w._origin, "transferFrom",
      (((Args.new.addString fromAddress).addString toAddress).addU64 tokenId).serialized, 0⟩
  ⟨(env req).map (fun _ => ()), [req], w⟩

/-- `getApproved(tokenId: u64): string[]` — decode the response as a string;
`if (addresses == '') return [];` otherwise `return addresses.split(',');`. -/
def SFTWrapper.getApproved (w : SFTWrapper) (env : Env) (tokenId : Nat) :
    OpResult (List String) :=
  let req : CallRequest := ⟨w._origin, "getApproved", (Args.new.addU64 tokenId).serialized, 0⟩
  ⟨((env req).bind bytesToString).map
    (fun addresses => if addresses = "" then [] else strSplit addresses ','), [req], w⟩

/-! ### Round-trip facts about the wire format -/

theorem take_length_append {α : Type} (l₁ l₂ : List α) :
    (l₁ ++ l₂).take l₁.length = l₁ := by
  simp

theorem drop_length_append {α : Type} (l₁ l₂ : List α) :
    (l₁ ++ l₂).drop l₁.length = l₂ := by
  simp

theorem readU64_append (n : Nat) (rest : Bytes) :
    readU64 (leBytes 8 n ++ rest) = .ok (n % 2 ^ 64, rest) := by
  have h8 : (leBytes 8 n).length = 8 := leBytes_length 8 n
  have ht : (leBytes 8 n ++ rest).take 8 = leBytes 8 n := by
    rw [← h8]; exact take_length_append _ _
  have hd : (leBytes 8 n ++ rest).drop 8 = rest := by
    rw [← h8]; exact drop_length_append _ _
  unfold readU64
  rw [if_neg (by simp [List.length_append, h8]), ht, hd, leToNat_leBytes]

theorem readString_append (s : String) (rest : Bytes)
    (hsize : (utf8Bytes s).length < 2 ^ 32) :
    readString (stringFieldBytes s ++ rest) = .ok (s, rest) := by
  have h4 : (leBytes 4 (utf8Bytes s).length).length = 4 := leBytes_length 4 _
  have hassoc : stringFieldBytes s ++ rest
      = leBytes 4 (utf8Bytes s).length ++ (utf8Bytes s ++ rest) := by
    simp [stringFieldBytes, List.append_assoc]
  have ht : (leBytes 4 (utf8Bytes s).length ++ (utf8Bytes s ++ rest)).take 4
      = leBytes 4 (utf8Bytes s).length := by
    rw [← h4]; exact take_length_append _ _
  have hd : (leBytes 4 (utf8Bytes s).length ++ (utf8Bytes s ++ rest)).drop 4
      = utf8Bytes s ++ rest := by
    rw [← h4]; exact drop_length_append _ _
  have hlen : leToNat (leBytes 4 (utf8Bytes s).length) = (utf8Bytes s).length := by
    rw [leToNat_leBytes]
    exact Nat.mod_eq_of_lt hsize
  have htake : (utf8Bytes s ++ rest).take (utf8Bytes s).length = utf8Bytes s :=
    take_length_append _ _
  have hdrop : (utf8Bytes s ++ rest).drop (utf8Bytes s).length = rest :=
    drop_length_append _ _
  rw [hassoc]
  unfold readString
  rw [if_neg (by simp [List.length_append, h4]), ht, hd, hlen]
  rw [if_neg (by simp [List.length_append])]
  rw [htake, hdrop, utf8DecodeString_utf8Bytes]

theorem stringFieldBytes_ne_nil (s : String) : stringFieldBytes s ≠ [] := by
  have h4 : (leBytes 4 (utf8Bytes s).length).length = 4 := leBytes_length 4 _
  intro h
  have := congrArg List.length h
  simp [stringFieldBytes, List.length_append, h4] at this

theorem bytesToString_append (s : String) (rest : Bytes)
    (hsize : (utf8Bytes s).length < 2 ^ 32) :
    bytesToString (stringFieldBytes s ++ rest) = .ok s := by
  unfold bytesToString
  rw [if_neg (by simp [stringFieldBytes_ne_nil s]), readString_append s rest hsize]
  rfl

theorem bytesToString_stringFieldBytes (s : String)
    (hsize : (utf8Bytes s).length < 2 ^ 32) :
    bytesToString (stringFieldBytes s) = .ok s := by
  have := bytesToString_append s [] hsize
  simpa using this

/-! ### The claims -/

/-- Claim C1: for every tokenId, if the response bytes returned by the call
primitive for `getApproved` decode to the empty string, then `getApproved`
returns an empty list (length 0), never a one-element list containing the
empty string. -/
theorem C1_getApproved_empty_string_decodes_to_nil (w : SFTWrapper) (env : Env)
    (tokenId : Nat) (bs : Bytes)
    (henv : env ⟨w._origin, "getApproved", (Args.new.addU64 tokenId).serialized, 0⟩ = .ok bs)
    (hdec : bytesToString bs = .ok "") :
    (w.getApproved env tokenId).result = .ok ([] : List String) := by
  simp [SFTWrapper.getApproved, henv, hdec, Except.bind, Except.map]

/-- Witness for C1: a concrete wrapper and an environment answering with the
empty buffer, which decodes to the empty string. -/
theorem C1_witness :
    ((SFTWrapper.make ⟨"sft"⟩).getApproved (fun _ => .ok []) 1).result
      = .ok ([] : List String) :=
  C1_getApproved_empty_string_decodes_to_nil _ _ 1 [] rfl rfl

/-- Claim C8: for every tokenId, if the response bytes for `getApproved`
decode to a non-empty comma-delimited string, `getApproved` returns the
comma-separated segments as a list in their original order; in particular
decoding "addrA,addrB,addrC" yields exactly ["addrA","addrB","addrC"]. -/
theorem C8_getApproved_splits_on_comma (w : SFTWrapper) (env : Env)
    (tokenId : Nat) (bs : Bytes) (s : String)
    (henv : env ⟨w._origin, "getApproved", (Args.new.addU64 tokenId).serialized, 0⟩ = .ok bs)
    (hdec : bytesToString bs = .ok s) (hne : s ≠ "") :
    (w.getApproved env tokenId).result = .ok (strSplit s ',') ∧
      strSplit "addrA,addrB,addrC" ',' = ["addrA", "addrB", "addrC"] := by
  constructor
  · simp [SFTWrapper.getApproved, henv, hdec, Except.bind, Except.map, hne]
  · decide

/-- Witness for C8: an environment answering with the encoding of
"addrA,addrB,addrC". -/
theorem C8_witness :
    ((SFTWrapper.make ⟨"sft"⟩).getApproved
        (fun _ => .ok (stringFieldBytes "addrA,addrB,addrC")) 7).result
      = .ok ["addrA", "addrB", "addrC"] := by
  rw [(C8_getApproved_splits_on_comma _ _ 7 (stringFieldBytes "addrA,addrB,addrC")
      "addrA,addrB,addrC" rfl (by rfl) (by decide)).1]
  rfl

/-- Claim C10: only the fully-empty decoded response string is special-cased
by `getApproved`: for every non-empty decoded response string the result is
the plain comma split, so consecutive or leading/trailing commas produce
empty-string elements ("a,,b" yields ["a","","b"], "," yields ["",""]), and
the returned list is never empty for a non-empty response string. -/
theorem C10_getApproved_plain_split_when_nonempty (w : SFTWrapper) (env : Env)
    (tokenId : Nat) (bs : Bytes) (s : String)
    (henv : env ⟨w._origin, "getApproved", (Args.new.addU64 tokenId).serialized, 0⟩ = .ok bs)
    (hdec : bytesToString bs = .ok s) (hne : s ≠ "") :
    (w.getApproved env tokenId).result = .ok (strSplit s ',') ∧
      strSplit s ',' ≠ [] ∧
      strSplit "a,,b" ',' = ["a", "", "b"] ∧
      strSplit "," ',' = ["", ""] := by
  refine ⟨?_, strSplit_ne_nil s ',', by decide, by decide⟩
  simp [SFTWrapper.getApproved, henv, hdec, Except.bind, Except.map, hne]

/-- Witness for C10: an environment answering with the encoding of "a,,b". -/
theorem C10_witness :
    ((SFTWrapper.make ⟨"sft"⟩).getApproved
        (fun _ => .ok (stringFieldBytes "a,,b")) 2).result
      = .ok ["a", "", "b"] := by
  rw [(C10_getApproved_plain_split_when_nonempty _ _ 2 (stringFieldBytes "a,,b")
      "a,,b" rfl (by rfl) (by decide)).1]
  rfl

/-- Claim C3: for every response buffer of fewer than 8 bytes (in particular
a 3-byte buffer), the 64-bit unsigned integer decode used by `totalSupply`
and `currentSupply` fails with a decode error, rather than returning a
truncated or zero-padded value. -/
theorem C3_u64_decode_fails_on_short_buffer (w : SFTWrapper) (env : Env)
    (bs : Bytes) (hlen : bs.length < 8) :
    bytesToU64 bs = .error (.decode "u64: fewer than 8 bytes") ∧
    (env ⟨w._origin, "totalSupply", NoArg.serialized, 0⟩ = .ok bs →
      (w.totalSupply env).result = .error (.decode "u64: fewer than 8 bytes")) ∧
    (env ⟨w._origin, "currentSupply", NoArg.serialized, 0⟩ = .ok bs →
      (w.currentSupply env).result = .error (.decode "u64: fewer than 8 bytes")) := by
  have hb : bytesToU64 bs = .error (.decode "u64: fewer than 8 bytes") := by
    unfold bytesToU64 readU64
    rw [if_pos hlen]
    rfl
  refine ⟨hb, fun henv => ?_, fun henv => ?_⟩
  · simp [SFTWrapper.totalSupply, henv, Except.bind, hb]
  · simp [SFTWrapper.currentSupply, henv, Except.bind, hb]

/-- Witness for C3: `totalSupply` against an environment answering with the
3-byte buffer `[1, 2, 3]`. -/
theorem C3_witness :
    ((SFTWrapper.make ⟨"sft"⟩).totalSupply (fun _ => .ok [1, 2, 3])).result
      = .error (.decode "u64: fewer than 8 bytes") :=
  (C3_u64_decode_fails_on_short_buffer _ _ [1, 2, 3] (by decide)).2.1 rfl

/-- Claim C2: for every operation with a string return (`name`, `symbol`,
`tokenURI`, `baseURI`, and the string underlying `getApproved`), the decoder
reads a length-prefixed string from the start of the response buffer, and if
the response buffer is empty the decoded string is the empty string. -/
theorem C2_string_results_use_length_prefixed_decoder (w : SFTWrapper) (env : Env)
    (s : String) (tokenId : Nat) (junk bs : Bytes)
    (hsize : (utf8Bytes s).length < 2 ^ 32) :
    (bytesToString [] = .ok "") ∧
    (bytesToString (stringFieldBytes s ++ junk) = .ok s) ∧
    (env ⟨w._origin, "name", NoArg.serialized, 0⟩ = .ok bs →
      (w.name env).result = bytesToString bs) ∧
    (env ⟨w._origin, "symbol", NoArg.serialized, 0⟩ = .ok bs →
      (w.symbol env).result = bytesToString bs) ∧
    (env ⟨w._origin, "tokenURI", (Args.new.addU64 tokenId).serialized, 0⟩ = .ok bs →
      (w.tokenURI env tokenId).result = bytesToString bs) ∧
    (env ⟨w._origin, "baseURI", NoArg.serialized, 0⟩ = .ok bs →
      (w.baseURI env).result = bytesToString bs) ∧
    (env ⟨w._origin, "getApproved", (Args.new.addU64 tokenId).serialized, 0⟩ = .ok bs →
      (w.getApproved env tokenId).result = (bytesToString bs).map
        (fun addresses => if addresses = "" then [] else strSplit addresses ',')) := by
  refine ⟨rfl, bytesToString_append s junk hsize, fun henv => ?_, fun henv => ?_,
    fun henv => ?_, fun henv => ?_, fun henv => ?_⟩
  · simp [SFTWrapper.name, henv, Except.bind]
  · simp [SFTWrapper.symbol, henv, Except.bind]
  · simp [SFTWrapper.tokenURI, henv, Except.bind]
  · simp [SFTWrapper.baseURI, henv, Except.bind]
  · simp [SFTWrapper.getApproved, henv, Except.bind]

/-- Witness for C2: the length-prefixed round trip at the concrete string
"ok" with trailing junk bytes. -/
theorem C2_witness :
    bytesToString (stringFieldBytes "ok" ++ [9, 9]) = .ok "ok" :=
  (C2_string_results_use_length_prefixed_decoder (SFTWrapper.make ⟨"sft"⟩)
    (fun _ => .ok []) "ok" 0 [9, 9] [] (by decide)).2.1

/-- Claim C4: for every one of the 11 proxy operations, if the call primitive
fails then the operation fails with that same error: it issues no second call
(no retry) and performs no decode of any response. -/
theorem C4_failure_propagates_unchanged (w : SFTWrapper) (env : Env) (e : CallError)
    (tokenId amount : Nat) (addressTo toAddress fromAddress address : String)
    (henv : ∀ req, env req = .error e) :
    ((w.name env).result = .error e ∧ (w.name env).calls.length = 1) ∧
    ((w.symbol env).result = .error e ∧ (w.symbol env).calls.length = 1) ∧
    ((w.tokenURI env tokenId).result = .error e ∧
      (w.tokenURI env tokenId).calls.length = 1) ∧
    ((w.baseURI env).result = .error e ∧ (w.baseURI env).calls.length = 1) ∧
    ((w.totalSupply env).result = .error e ∧ (w.totalSupply env).calls.length = 1) ∧
    ((w.currentSupply env).result = .error e ∧
      (w.currentSupply env).calls.length = 1) ∧
    ((w.mint env addressTo).result = .error e ∧
      (w.mint env addressTo).calls.length = 1) ∧
    ((w.transfer env toAddress tokenId amount).result = .error e ∧
      (w.transfer env toAddress tokenId amount).calls.length = 1) ∧
    ((w.approve env tokenId address).result = .error e ∧
      (w.approve env tokenId address).calls.length = 1) ∧
    ((w.transferFrom env fromAddress toAddress tokenId).result = .error e ∧
      (w.transferFrom env fromAddress toAddress tokenId).calls.length = 1) ∧
    ((w.getApproved env tokenId).result = .error e ∧
      (w.getApproved env tokenId).calls.length = 1) := by
  simp [SFTWrapper.name, SFTWrapper.symbol, SFTWrapper.tokenURI, SFTWrapper.baseURI,
    SFTWrapper.totalSupply, SFTWrapper.currentSupply, SFTWrapper.mint,
    SFTWrapper.transfer, SFTWrapper.approve, SFTWrapper.transferFrom,
    SFTWrapper.getApproved, henv, Except.bind, Except.map]

/-- Witness for C4: a concrete wrapper against an environment that always
fails with a transport error. -/
theorem C4_witness :
    ((SFTWrapper.make ⟨"sft"⟩).name (fun _ => .error (.transport "target unreachable"))).result
      = .error (.transport "target unreachable") :=
  (C4_failure_propagates_unchanged (SFTWrapper.make ⟨"sft"⟩)
    (fun _ => .error (.transport "target unreachable")) (.transport "target unreachable")
    0 0 "a" "b" "c" "d" (fun _ => rfl)).1.1

/-- Claim C5: for every one of the 11 proxy operations and all argument
values, the coin-transfer amount passed to the call primitive is exactly
zero. -/
theorem C5_all_operations_send_zero_coins (w : SFTWrapper) (env : Env)
    (tokenId amount : Nat) (addressTo toAddress fromAddress address : String) :
    (w.name env).calls.map CallRequest.coins = [0] ∧
    (w.symbol env).calls.map CallRequest.coins = [0] ∧
    (w.tokenURI env tokenId).calls.map CallRequest.coins = [0] ∧
    (w.baseURI env).calls.map CallRequest.coins = [0] ∧
    (w.totalSupply env).calls.map CallRequest.coins = [0] ∧
    (w.currentSupply env).calls.map CallRequest.coins = [0] ∧
    (w.mint env addressTo).calls.map CallRequest.coins = [0] ∧
    (w.transfer env toAddress tokenId amount).calls.map CallRequest.coins = [0] ∧
    (w.approve env tokenId address).calls.map CallRequest.coins = [0] ∧
    (w.transferFrom env fromAddress toAddress tokenId).calls.map CallRequest.coins = [0] ∧
    (w.getApproved env tokenId).calls.map CallRequest.coins = [0] :=
  ⟨rfl, rfl, rfl, rfl, rfl, rfl, rfl, rfl, rfl, rfl, rfl⟩

/-- Claim C6: every no-argument operation (`name`, `symbol`, `baseURI`,
`totalSupply`, `currentSupply`) passes the distinguished empty byte buffer as
payload to the call primitive, not a buffer containing a zero count field:
`NoArg` (and likewise an `Args` with zero additions) serializes to the empty
buffer, and each of the five operations sends exactly that buffer. -/
theorem C6_noarg_operations_send_empty_buffer (w : SFTWrapper) (env : Env) :
    NoArg.serialized = ([] : Bytes) ∧
    Args.new.serialized = ([] : Bytes) ∧
    (w.name env).calls.map CallRequest.payload = [([] : Bytes)] ∧
    (w.symbol env).calls.map CallRequest.payload = [([] : Bytes)] ∧
    (w.baseURI env).calls.map CallRequest.payload = [([] : Bytes)] ∧
    (w.totalSupply env).calls.map CallRequest.payload = [([] : Bytes)] ∧
    (w.currentSupply env).calls.map CallRequest.payload = [([] : Bytes)] :=
  ⟨rfl, rfl, rfl, rfl, rfl, rfl, rfl⟩

/-- Claim C7: for every toAddress string, tokenId, and amount (in u64 range,
with the address's UTF-8 length below the 32-bit length-prefix bound), the
payload that `transfer` builds encodes the three values in the order
[string, u64, u64], so that decoding that payload against the 3-field schema
recovers (toAddress, tokenId, amount) in that order; in particular encoding
(toAddress="addr1", tokenId=5, amount=3) decodes back to ("addr1", 5, 3). -/
theorem C7_transfer_payload_order_roundtrip (w : SFTWrapper) (env : Env)
    (toAddress : String) (tokenId amount : Nat)
    (hsize : (utf8Bytes toAddress).length < 2 ^ 32)
    (htid : tokenId < 2 ^ 64) (hamt : amount < 2 ^ 64) :
    (w.transfer env toAddress tokenId amount).calls.map CallRequest.payload =
      [(((Args.new.addString toAddress).addU64 tokenId).addU64 amount).serialized] ∧
    decodeStringU64U64
        ((((Args.new.addString toAddress).addU64 tokenId).addU64 amount).serialized) =
      .ok (toAddress, tokenId, amount) := by
  refine ⟨rfl, ?_⟩
  have hser : (((Args.new.addString toAddress).addU64 tokenId).addU64 amount).serialized
      = stringFieldBytes toAddress ++ (leBytes 8 tokenId ++ (leBytes 8 amount ++ [])) := by
    simp [Args.new, Args.addString, Args.addU64]
  rw [hser]
  unfold decodeStringU64U64
  rw [readString_append _ _ hsize]
  dsimp only
  rw [readU64_append]
  dsimp only
  rw [readU64_append]
  dsimp only
  rw [Nat.mod_eq_of_lt htid, Nat.mod_eq_of_lt hamt]

/-- Witness for C7: the concrete instance ("addr1", 5, 3). -/
theorem C7_witness :
    decodeStringU64U64
        ((((Args.new.addString "addr1").addU64 5).addU64 3).serialized) =
      .ok ("addr1", 5, 3) :=
  (C7_transfer_payload_order_roundtrip (SFTWrapper.make ⟨"sft"⟩) (fun _ => .ok [])
    "addr1" 5 3 (by decide) (by decide) (by decide)).2

/-- Claim C9: for every one of the 11 proxy operations, the target identity
passed to the call primitive equals the Identity the wrapper was constructed
with, and the wrapper's only state field (`_origin`) is unchanged by every
operation. -/
theorem C9_operations_target_origin_and_leave_state_unchanged (w : SFTWrapper)
    (env : Env) (at_ : Address) (tokenId amount : Nat)
    (addressTo toAddress fromAddress address : String) :
    (SFTWrapper.make at_)._origin = at_ ∧
    ((w.name env).calls.map CallRequest.target = [w._origin] ∧
      (w.name env).final = w) ∧
    ((w.symbol env).calls.map CallRequest.target = [w._origin] ∧
      (w.symbol env).final = w) ∧
    ((w.tokenURI env tokenId).calls.map CallRequest.target = [w._origin] ∧
      (w.tokenURI env tokenId).final = w) ∧
    ((w.baseURI env).calls.map CallRequest.target = [w._origin] ∧
      (w.baseURI env).final = w) ∧
    ((w.totalSupply env).calls.map CallRequest.target = [w._origin] ∧
      (w.totalSupply env).final = w) ∧
    ((w.currentSupply env).calls.map CallRequest.target = [w._origin] ∧
      (w.currentSupply env).final = w) ∧
    ((w.mint env addressTo).calls.map CallRequest.target = [w._origin] ∧
      (w.mint env addressTo).final = w) ∧
    ((w.transfer env toAddress tokenId amount).calls.map CallRequest.target = [w._origin] ∧
      (w.transfer env toAddress tokenId amount).final = w) ∧
    ((w.approve env tokenId address).calls.map CallRequest.target = [w._origin] ∧
      (w.approve env tokenId address).final = w) ∧
    ((w.transferFrom env fromAddress toAddress tokenId).calls.map CallRequest.target
        = [w._origin] ∧
      (w.transferFrom env fromAddress toAddress tokenId).final = w) ∧
    ((w.getApproved env tokenId).calls.map CallRequest.target = [w._origin] ∧
      (w.getApproved env tokenId).final = w) :=
  ⟨rfl, ⟨rfl, rfl⟩, ⟨rfl, rfl⟩, ⟨rfl, rfl⟩, ⟨rfl, rfl⟩, ⟨rfl, rfl⟩, ⟨rfl, rfl⟩,
    ⟨rfl, rfl⟩, ⟨rfl, rfl⟩, ⟨rfl, rfl⟩, ⟨rfl, rfl⟩, ⟨rfl, rfl⟩⟩
